import Mathlib

/-!
Verification development for the keyword-finder repository, centred on the
`KeywordOpportunityAnalyzer` class of `old-way.py`.  The Python code is
shallowly embedded as follows.

* Raw table cells are strings (`List Char`); `pd.to_numeric(..., errors='coerce')`
  on a string cell is the total parser `parseNum`, returning `none` for `NaN`.
  The parser covers optional sign and decimal notation (the formats occurring in
  keyword-planner exports); scientific notation and surrounding whitespace are
  out of scope.  Python floats are idealised as real numbers, and Python's
  two-decimal `round` as `round2` built on Mathlib's `round` (the inputs
  settled below never sit on a rounding tie, where the half-even convention of
  Python could differ).
* A pandas column is string-typed or numeric-typed; a `Cell` is either.
  `Series.str.replace(a, '')` (literal replacement, the pandas 2.x default)
  removes every occurrence of `a` and is only available on string cells:
  `analyze_keywords` guards each `.str` access by checking that the column
  still holds string cells and fails with `attributeError` otherwise, the way
  pandas raises on a coerced `float64` column.
* `df.sort_values(by, ascending=False)` is embedded through pandas' own
  construction (`nargsort`): reverse the rows, argsort ascending, reverse the
  result.  The ascending argsort is taken to be stable (`List.insertionSort`),
  which is bit-exact for numpy's default quicksort on the insertion-sort
  regime (at most 16 rows) and correct up to the order of tied keys beyond it.
* `analyze_keywords` overwrites the three numeric columns of its argument in
  place; the embedding returns the post-call table next to the scored output.
-/

abbrev Chars := List Char

/-- Numeric value of a digit string, most significant digit first. -/
def digitsVal (l : Chars) : ℕ :=
  l.foldl (fun a c => 10 * a + (c.toNat - 48)) 0

/-- Parse an unsigned decimal numeral: digits with an optional single decimal
point, at least one digit overall (`float`-style, so `"1."` and `".5"` parse). -/
def parseUnsigned (l : Chars) : Option ℚ :=
  let intPart := l.takeWhile (fun c => c ≠ '.')
  let rest := l.dropWhile (fun c => c ≠ '.')
  match rest with
  | [] =>
    if !intPart.isEmpty && intPart.all Char.isDigit then some (digitsVal intPart)
    else none
  | _ :: fracPart =>
    if (!intPart.isEmpty || !fracPart.isEmpty) && intPart.all Char.isDigit &&
        fracPart.all Char.isDigit then
      some ((digitsVal intPart : ℚ) + (digitsVal fracPart : ℚ) / (10 : ℚ) ^ fracPart.length)
    else none

/-- `pd.to_numeric(s, errors='coerce')` on a string: optional sign, then an
unsigned numeral; unparseable input coerces to missing (`none`), never raises. -/
def parseNum : Chars → Option ℚ
  | '-' :: rest => (parseUnsigned rest).map (fun q => -q)
  | '+' :: rest => parseUnsigned rest
  | l => parseUnsigned l

/-- One table cell: still a string, or already coerced to numeric
(`none` standing for `NaN`). -/
inductive Cell where
  | str : Chars → Cell
  | num : Option ℚ → Cell
deriving DecidableEq

/-- Whether the cell still holds a string (so that `.str` accessors apply). -/
def Cell.isStr : Cell → Bool
  | .str _ => true
  | .num _ => false

/-- `pd.to_numeric(cell, errors='coerce')`: parse a string cell, keep a numeric one. -/
def cellToNumeric : Cell → Option ℚ
  | .str s => parseNum s
  | .num x => x

/-- `to_numeric(cell.str.replace(strip, ''), errors='coerce')` on a string cell:
drop every occurrence of `strip`, then parse.  (Numeric cells never reach this
function in `analyze_keywords`: the `.str` guard fails first.) -/
def replaceParse (strip : Char) : Cell → Cell
  | .str s => .num (parseNum (s.filter (fun c => c ≠ strip)))
  | .num x => .num x

/-- One row of the keyword table: the `Keyword`, `Avg. monthly searches`,
`Competition` and `Top of page bid (low range)` columns. -/
structure Row where
  keyword : Chars
  searches : Cell
  competition : Cell
  bid : Cell
deriving DecidableEq

/-- The analyzer's configuration triple, set in `__init__`. -/
structure Thresholds where
  min_search_volume : ℚ
  max_competition : ℚ
  min_cpc : ℚ

/-- Two-decimal rounding of `calculate_opportunity_score`'s return value. -/
noncomputable def round2 (x : ℝ) : ℝ := (round (x * 100) : ℝ) / 100

/-- `KeywordOpportunityAnalyzer.calculate_opportunity_score`. -/
noncomputable def calculate_opportunity_score (search_volume competition cpc : ℝ) : ℝ :=
  let volume_score := Real.logb 10 (max search_volume 1) / 5
  let competition_score := 1 - competition
  let cpc_score := min (cpc / 10) 1
  let opportunity_score := volume_score * 0.4 + competition_score * 0.4 + cpc_score * 0.2
  round2 (opportunity_score * 100)

/-- The score of a filtered row (its three cells are numeric and present by the
time the score is computed; `getD 0` is a total-function placeholder for the
unreachable missing case). -/
noncomputable def scoreOfRow (r : Row) : ℝ :=
  calculate_opportunity_score (((cellToNumeric r.searches).getD 0 : ℚ) : ℝ)
    (((cellToNumeric r.competition).getD 0 : ℚ) : ℝ)
    (((cellToNumeric r.bid).getD 0 : ℚ) : ℝ)

/-- `x >= t` on a possibly-missing value; comparisons with `NaN` are `False`. -/
def optGe (x : Option ℚ) (t : ℚ) : Bool :=
  match x with
  | some v => decide (t ≤ v)
  | none => false

/-- `x <= t` on a possibly-missing value; comparisons with `NaN` are `False`. -/
def optLe (x : Option ℚ) (t : ℚ) : Bool :=
  match x with
  | some v => decide (v ≤ t)
  | none => false

/-- The boolean `mask` of `analyze_keywords`. -/
def passesMask (t : Thresholds) (r : Row) : Bool :=
  optGe (cellToNumeric r.searches) t.min_search_volume &&
    optLe (cellToNumeric r.competition) t.max_competition &&
      optGe (cellToNumeric r.bid) t.min_cpc

/-- `df['Competition'] = pd.to_numeric(df['Competition'], errors='coerce')`,
rowwise. -/
def coerceCompetition (r : Row) : Row :=
  { r with competition := Cell.num (cellToNumeric r.competition) }

/-- The combined effect of the three column-coercion assignments of
`analyze_keywords` on one row. -/
def normRow (r : Row) : Row :=
  { keyword := r.keyword
    searches := replaceParse ',' r.searches
    competition := Cell.num (cellToNumeric r.competition)
    bid := replaceParse '$' r.bid }

/-- The error pandas raises when `.str` is used on a non-string column. -/
inductive PandasError where
  | attributeError : PandasError
deriving DecidableEq

/-- `df.sort_values(col, ascending=False)` as pandas builds it: reverse, stable
ascending argsort, reverse (see the module docstring for the regime in which
the stable model of numpy's argsort is exact). -/
noncomputable def sortValuesDesc (l : List (Row × ℝ)) : List (Row × ℝ) :=
  (List.insertionSort (fun a b => a.2 ≤ b.2) l.reverse).reverse

/-- `KeywordOpportunityAnalyzer.analyze_keywords`.  Returns the coerced table
(the caller's `df` after its in-place column assignments) together with the
sorted, scored `opportunities`. -/
noncomputable def analyze_keywords (t : Thresholds) (df : List Row) :
    Except PandasError (List Row × List (Row × ℝ)) :=
  let df1 := df.map coerceCompetition
  if df1.all (fun r => r.searches.isStr) then
    let df2 := df1.map (fun r => { r with searches := replaceParse ',' r.searches })
    if df2.all (fun r => r.bid.isStr) then
      let df3 := df2.map (fun r => { r with bid := replaceParse '$' r.bid })
      let opportunities := df3.filter (fun r => passesMask t r)
      let scored := opportunities.map (fun r => (r, scoreOfRow r))
      Except.ok (df3, sortValuesDesc scored)
    else Except.error PandasError.attributeError
  else Except.error PandasError.attributeError

/-- The four `required_columns` of `load_keyword_data`. -/
def requiredColumns : List Chars :=
  ["Keyword".data, "Avg. monthly searches".data, "Competition".data,
    "Top of page bid (low range)".data]

/-- A parsed delimited-text table: column names and string cells (row-major). -/
structure PTable where
  columns : List Chars
  cells : List (List Chars)

/-- Python exceptions distinguished by the embedding: the named `ValueError`
and the generic base `Exception`. -/
inductive PyExc where
  | valueError : Chars → PyExc
  | exception : Chars → PyExc
deriving DecidableEq

/-- `str(e)` of an exception: its message. -/
def PyExc.message : PyExc → Chars
  | .valueError m => m
  | .exception m => m

/-- The body of `load_keyword_data`'s `try` block: check the required columns
and raise `ValueError` if one is absent.  (`pd.read_csv` itself is the I/O
boundary; the table arrives already parsed.) -/
def loadInner (t : PTable) : Except PyExc PTable :=
  if requiredColumns.all (fun c => t.columns.contains c) then Except.ok t
  else
    Except.error (PyExc.valueError
      ("CSV must contain columns: ".data ++ List.intercalate ", ".data requiredColumns))

/-- `KeywordOpportunityAnalyzer.load_keyword_data`: the broad
`except Exception as e` catches the `ValueError` and re-raises it as a plain
`Exception` with a message prefix. -/
def load_keyword_data (t : PTable) : Except PyExc PTable :=
  match loadInner t with
  | Except.ok d => Except.ok d
  | Except.error e =>
    Except.error (PyExc.exception ("Error loading keyword data: ".data ++ e.message))

/-- `KeywordOpportunityAnalyzer.export_results`: the path actually written to.
The `timestamp`-bearing `filename` is computed exactly as in the source and,
exactly as in the source, never used. -/
def export_results (timestamp : Chars) (output_filepath : Chars) : Chars :=
  let filename := "keyword_opportunities_".data ++ timestamp ++ ".csv".data
  let path :=
    if ".csv".data <:+ output_filepath then output_filepath
    else output_filepath ++ ".csv".data
  path

/-- `Series.mean()` over possibly-missing rationals: pandas skips `NaN`s and
returns `NaN` (here `none`) for an empty or all-missing column. -/
def meanQ (l : List (Option ℚ)) : Option ℚ :=
  let v := l.reduceOption
  if v.isEmpty then none else some (v.sum / (v.length : ℚ))

/-- `Series.mean()` over the (never-missing) score column. -/
noncomputable def meanR (l : List ℝ) : Option ℝ :=
  if l.isEmpty then none else some (l.sum / (l.length : ℝ))

/-- The summary dictionary of `generate_summary`. -/
structure Summary where
  total_opportunities : ℕ
  avg_search_volume : Option ℚ
  avg_competition : Option ℚ
  avg_opportunity_score : Option ℝ
  top_keywords : List Chars

/-- `KeywordOpportunityAnalyzer.generate_summary`. -/
noncomputable def generate_summary (opportunities : List (Row × ℝ)) : Summary :=
  { total_opportunities := opportunities.length
    avg_search_volume := meanQ (opportunities.map (fun p => cellToNumeric p.1.searches))
    avg_competition := meanQ (opportunities.map (fun p => cellToNumeric p.1.competition))
    avg_opportunity_score := meanR (opportunities.map (fun p => p.2))
    top_keywords := (opportunities.take 5).map (fun p => p.1.keyword) }

/-- The scoring formula exactly as the specification words it:
`round(100 * (0.4*volume_score + 0.4*competition_score + 0.2*cpc_score), 2)`. -/
noncomputable def spec_opportunity_score (v c b : ℝ) : ℝ :=
  round2 (100 * (0.4 * (Real.logb 10 (max v 1) / 5) + 0.4 * (1 - c) + 0.2 * min (b / 10) 1))

/-- The retention condition exactly as the specification words it: all three
normalized fields present, volume at least `min_search_volume`, competition at
most `max_competition`, cpc at least `min_cpc`. -/
def retainSpec (t : Thresholds) (r : Row) : Prop :=
  (∃ v, cellToNumeric r.searches = some v ∧ t.min_search_volume ≤ v) ∧
    (∃ c, cellToNumeric r.competition = some c ∧ c ≤ t.max_competition) ∧
      (∃ b, cellToNumeric r.bid = some b ∧ t.min_cpc ≤ b)

/-- The analyzer's default thresholds (`main` passes the same values). -/
def thresholds0 : Thresholds := ⟨1000, 3/10, 1/2⟩

/-- A sample raw row as exported by the keyword planner. -/
def row0 : Row :=
  ⟨"kw".data, Cell.str "1,200".data, Cell.str "0.1".data, Cell.str "$2.5".data⟩

/-- A raw row whose competition field is the unparseable `"N/A"` while volume
and cpc would pass the default thresholds. -/
def rowNA : Row :=
  ⟨"kw2".data, Cell.str "5,000".data, Cell.str "N/A".data, Cell.str "$1.00".data⟩

/-- A one-element scored collection built from the sample row. -/
noncomputable def scoredSample : List (Row × ℝ) := [(normRow row0, (66 : ℝ))]

/-- An input table lacking the required `Competition` column. -/
def ptableMissing : PTable :=
  ⟨["Keyword".data, "Avg. monthly searches".data, "Top of page bid (low range)".data], []⟩

/-- The exception `load_keyword_data` surfaces when a required column is
absent: the generic wrapper, its message the prefixed `ValueError` text. -/
def loadFailureExc : PyExc :=
  PyExc.exception ("Error loading keyword data: ".data ++
    ("CSV must contain columns: ".data ++ List.intercalate ", ".data requiredColumns))

/-! Helper lemmas about rounding and the base-10 logarithm. -/

/-- Mathlib's `round` is monotone. -/
lemma round_mono_of_le {x y : ℝ} (h : x ≤ y) : round x ≤ round y := by
  rw [round_eq, round_eq]
  exact Int.floor_mono (by linarith)

/-- Mathlib's `round` sends nonnegative reals to nonnegative integers. -/
lemma round_nonneg_of_nonneg {x : ℝ} (h : 0 ≤ x) : 0 ≤ round x := by
  rw [round_eq]
  exact Int.le_floor.mpr (by push_cast; linarith)

/-- A lower bound on `log10 1200`, sharp enough to settle the rounding below. -/
lemma logb1200_lb : (197 : ℝ) / 64 ≤ Real.logb 10 1200 := by
  have hpow : (10 : ℝ) ^ (197 : ℕ) ≤ (1200 : ℝ) ^ (64 : ℕ) := by
    exact_mod_cast (by norm_num : (10 : ℕ) ^ 197 ≤ 1200 ^ 64)
  have h1 : Real.logb 10 ((10 : ℝ) ^ (197 : ℕ)) ≤ Real.logb 10 ((1200 : ℝ) ^ (64 : ℕ)) :=
    Real.logb_le_logb_of_le (by norm_num) (by positivity) hpow
  rw [Real.logb_pow, Real.logb_pow, Real.logb_self_eq_one (by norm_num)] at h1
  push_cast at h1
  linarith

/-- An upper bound on `log10 1200`, sharp enough to settle the rounding below. -/
lemma logb1200_ub : Real.logb 10 1200 < (3849 : ℝ) / 1250 := by
  have hpow : (1200 : ℝ) ^ (1250 : ℕ) < (10 : ℝ) ^ (3849 : ℕ) := by
    exact_mod_cast (by norm_num : (1200 : ℕ) ^ 1250 < 10 ^ 3849)
  have h1 : Real.logb 10 ((1200 : ℝ) ^ (1250 : ℕ)) < Real.logb 10 ((10 : ℝ) ^ (3849 : ℕ)) :=
    Real.logb_lt_logb (by norm_num) (by positivity) hpow
  rw [Real.logb_pow, Real.logb_pow, Real.logb_self_eq_one (by norm_num)] at h1
  push_cast at h1
  linarith

/-- Evaluation of the score at the specification's worked example
(volume 1200, competition 0.1, cpc 2.5): the result is 65.63. -/
lemma score_at_example : calculate_opportunity_score 1200 (1 / 10) (5 / 2) = 6563 / 100 := by
  have hmax : max (1200 : ℝ) 1 = 1200 := max_eq_left (by norm_num)
  have hmin : min ((5 : ℝ) / 2 / 10) 1 = 1 / 4 := by
    rw [min_eq_left] <;> norm_num
  simp only [calculate_opportunity_score, round2]
  rw [hmax, hmin]
  have harg : (Real.logb 10 1200 / 5 * 0.4 + (1 - 1 / 10) * 0.4 + 1 / 4 * 0.2) * 100 * 100 =
      800 * Real.logb 10 1200 + 4100 := by ring
  rw [harg]
  have hround : round ((800 : ℝ) * Real.logb 10 1200 + 4100) = 6563 := by
    rw [round_eq, Int.floor_eq_iff]
    have h1 := logb1200_lb
    have h2 := logb1200_ub
    constructor
    · push_cast
      linarith
    · push_cast
      linarith
  rw [hround]
  norm_num

/-- Evaluation of the score at volume 1000000, competition 0, cpc 10. -/
lemma score_at_million : calculate_opportunity_score 1000000 0 10 = 108 := by
  have hmax : max (1000000 : ℝ) 1 = 1000000 := max_eq_left (by norm_num)
  have hlogb : Real.logb 10 (1000000 : ℝ) = 6 := by
    rw [show (1000000 : ℝ) = (10 : ℝ) ^ (6 : ℕ) by norm_num, Real.logb_pow,
      Real.logb_self_eq_one (by norm_num)]
    norm_num
  have hmin : min ((10 : ℝ) / 10) 1 = 1 := by norm_num
  simp only [calculate_opportunity_score, round2]
  rw [hmax, hlogb, hmin]
  have harg : ((6 : ℝ) / 5 * 0.4 + (1 - 0) * 0.4 + 1 * 0.2) * 100 * 100 = 10800 := by norm_num
  rw [harg]
  rw [show (10800 : ℝ) = ((10800 : ℤ) : ℝ) by norm_num, round_intCast]
  norm_num

/-- Membership is invariant under the descending sort. -/
lemma mem_sortValuesDesc (p : Row × ℝ) (l : List (Row × ℝ)) :
    p ∈ sortValuesDesc l ↔ p ∈ l := by
  simp only [sortValuesDesc, List.mem_reverse]
  rw [(List.perm_insertionSort _ _).mem_iff, List.mem_reverse]

/-- The boolean `mask` coincides with the specification's retention predicate. -/
lemma passesMask_iff (t : Thresholds) (r : Row) :
    passesMask t r = true ↔ retainSpec t r := by
  simp only [passesMask, Bool.and_eq_true, retainSpec]
  cases hs : cellToNumeric r.searches <;> cases hc : cellToNumeric r.competition <;>
    cases hb : cellToNumeric r.bid <;> simp [optGe, optLe, and_assoc]

/-- Characterization of a successful `analyze_keywords` run: the returned table
is the input with all three numeric columns coerced, and the output is the
sorted scoring of the mask-filtered rows. -/
lemma analyze_ok_elim {t : Thresholds} {df df' : List Row} {out : List (Row × ℝ)}
    (h : analyze_keywords t df = Except.ok (df', out)) :
    df' = df.map normRow ∧
      out = sortValuesDesc
        (((df.map normRow).filter (fun r => passesMask t r)).map (fun r => (r, scoreOfRow r))) := by
  simp only [analyze_keywords] at h
  split_ifs at h with h1 h2
  · rw [Except.ok.injEq, Prod.mk.injEq] at h
    obtain ⟨hdf, hout⟩ := h
    have hmap : ((df.map coerceCompetition).map
          (fun r => { r with searches := replaceParse ',' r.searches })).map
          (fun r => { r with bid := replaceParse '$' r.bid }) = df.map normRow := by
      simp only [List.map_map]
      rfl
    refine ⟨?_, ?_⟩
    · rw [← hdf, hmap]
    · rw [← hout, hmap]

/-- Constructive counterpart of `analyze_ok_elim`: on a table whose searches
and bid columns are still strings, the run succeeds with the coerced table and
the sorted scoring of the mask-filtered rows. -/
lemma analyze_ok_intro (t : Thresholds) (df : List Row)
    (h1 : ∀ r ∈ df, r.searches.isStr = true) (h2 : ∀ r ∈ df, r.bid.isStr = true) :
    analyze_keywords t df = Except.ok (df.map normRow,
      sortValuesDesc
        (((df.map normRow).filter (fun r => passesMask t r)).map (fun r => (r, scoreOfRow r)))) := by
  have hmap : ((df.map coerceCompetition).map
        (fun r => { r with searches := replaceParse ',' r.searches })).map
        (fun r => { r with bid := replaceParse '$' r.bid }) = df.map normRow := by
    simp only [List.map_map]
    rfl
  have hc1 : ((df.map coerceCompetition).all (fun r => r.searches.isStr)) = true := by
    rw [List.all_eq_true]
    intro r hr
    rw [List.mem_map] at hr
    obtain ⟨r0, hr0, rfl⟩ := hr
    exact h1 r0 hr0
  have hc2 : (((df.map coerceCompetition).map
        (fun r => { r with searches := replaceParse ',' r.searches })).all
        (fun r => r.bid.isStr)) = true := by
    rw [List.all_eq_true]
    intro r hr
    rw [List.mem_map] at hr
    obtain ⟨r1, hr1, rfl⟩ := hr
    rw [List.mem_map] at hr1
    obtain ⟨r0, hr0, rfl⟩ := hr1
    exact h2 r0 hr0
  simp only [analyze_keywords, hc1, hc2, if_true]
  rw [hmap]

/-- Evaluation of the normalization of `row0`: the comma is stripped from the
volume, the competition decimal parses, the currency symbol is stripped from
the bid. -/
lemma normRow_row0 : normRow row0 =
    ⟨"kw".data, Cell.num (some 1200), Cell.num (some (1 / 10)), Cell.num (some (5 / 2))⟩ := by
  have h : normRow row0 =
      ⟨"kw".data, Cell.num (some ((1200 : ℕ) : ℚ)),
        Cell.num (some (((0 : ℕ) : ℚ) + ((1 : ℕ) : ℚ) / (10 : ℚ) ^ (1 : ℕ))),
        Cell.num (some (((2 : ℕ) : ℚ) + ((5 : ℕ) : ℚ) / (10 : ℚ) ^ (1 : ℕ)))⟩ := rfl
  rw [h]
  simp only [Row.mk.injEq, Cell.num.injEq, Option.some.injEq]
  norm_num

/-- Evaluation of the normalization of `rowNA`: the `"N/A"` competition field
coerces to missing. -/
lemma normRow_rowNA : normRow rowNA =
    ⟨"kw2".data, Cell.num (some 5000), Cell.num none, Cell.num (some 1)⟩ := by
  have h : normRow rowNA =
      ⟨"kw2".data, Cell.num (some ((5000 : ℕ) : ℚ)), Cell.num none,
        Cell.num (some (((1 : ℕ) : ℚ) + ((0 : ℕ) : ℚ) / (10 : ℚ) ^ (2 : ℕ)))⟩ := rfl
  rw [h]
  simp only [Row.mk.injEq, Cell.num.injEq, Option.some.injEq]
  norm_num

/-- The normalized `row0` passes the default thresholds. -/
lemma mask_row0 : passesMask thresholds0 (normRow row0) = true := by
  rw [normRow_row0]
  simp only [passesMask, cellToNumeric, optGe, optLe, thresholds0, Bool.and_eq_true,
    decide_eq_true_eq]
  norm_num

/-- The normalized `rowNA` fails the mask: its competition value is missing. -/
lemma mask_rowNA : passesMask thresholds0 (normRow rowNA) = false := by
  rw [normRow_rowNA]
  simp [passesMask, cellToNumeric, optGe, optLe]

/-- The descending sort of a singleton is itself. -/
lemma sortValuesDesc_singleton (p : Row × ℝ) : sortValuesDesc [p] = [p] := rfl

/-- Concrete run of the analyzer on the single-row table `[row0]`. -/
lemma analyze_row0 : analyze_keywords thresholds0 [row0] =
    Except.ok ([normRow row0], [(normRow row0, scoreOfRow (normRow row0))]) := by
  rw [analyze_ok_intro thresholds0 [row0] (by intro r hr; simp at hr; subst hr; rfl)
    (by intro r hr; simp at hr; subst hr; rfl)]
  simp only [List.map_cons, List.map_nil, List.filter_cons, mask_row0, if_true,
    List.filter_nil, sortValuesDesc_singleton]

/-- Concrete run of the analyzer on the single-row table `[rowNA]`: the row is
excluded, the output is empty. -/
lemma analyze_rowNA : analyze_keywords thresholds0 [rowNA] =
    Except.ok ([normRow rowNA], []) := by
  rw [analyze_ok_intro thresholds0 [rowNA] (by intro r hr; simp at hr; subst hr; rfl)
    (by intro r hr; simp at hr; subst hr; rfl)]
  simp only [List.map_cons, List.map_nil, List.filter_cons, mask_rowNA, Bool.false_eq_true,
    if_false, List.filter_nil, List.map_nil]
  rfl

/-- C1 counterexample: at the claim's own example input — volume 1200,
competition 0.1, cpc 2.5 — `calculate_opportunity_score` does not return the
claimed 70.62 (it returns 65.63: the weighted sum is 0.4·(log10 1200 / 5) +
0.4·0.9 + 0.2·0.25 ≈ 0.6563, not 0.7062). -/
theorem C1_claimed_example_value_is_wrong :
    calculate_opportunity_score 1200 (1 / 10) (5 / 2) ≠ 7062 / 100 := by
  rw [score_at_example]
  norm_num

/-- C1 amended: the computed score equals
`round(100 * (0.4 * (log10(max(v,1))/5) + 0.4 * (1-c) + 0.2 * min(b/10, 1)), 2)`
for every input, and at v = 1200, c = 0.1, b = 2.5 it equals 65.63. -/
theorem C1_score_formula_and_example :
    (∀ v c b : ℝ, calculate_opportunity_score v c b = spec_opportunity_score v c b) ∧
      calculate_opportunity_score 1200 (1 / 10) (5 / 2) = 6563 / 100 := by
  constructor
  · intro v c b
    simp only [calculate_opportunity_score, spec_opportunity_score, round2]
    exact congrArg (fun z : ℤ => (z : ℝ) / 100) (congrArg round (by ring))
  · exact score_at_example

/-- C10: the score is not bounded by 100 on in-range inputs: at
volume 1000000, competition 0, cpc 10 it is 108, strictly above 100. -/
theorem C10_score_exceeds_100 :
    100 < calculate_opportunity_score 1000000 0 10 ∧
      calculate_opportunity_score 1000000 0 10 = 108 := by
  refine ⟨?_, score_at_million⟩
  rw [score_at_million]
  norm_num

/-- C2: given a successful run, a row of the input table appears in the scored
output exactly when its three normalized fields are present and pass the
thresholds, and every output row has all three fields present — a row with any
missing (unparseable) field is never in the output. -/
theorem C2_retention_iff (t : Thresholds) (df df' : List Row) (out : List (Row × ℝ)) (r : Row)
    (hok : analyze_keywords t df = Except.ok (df', out)) (hr : r ∈ df) :
    ((∃ s, (normRow r, s) ∈ out) ↔ retainSpec t (normRow r)) ∧
      ∀ p ∈ out, (cellToNumeric p.1.searches).isSome = true ∧
        (cellToNumeric p.1.competition).isSome = true ∧
          (cellToNumeric p.1.bid).isSome = true := by
  obtain ⟨-, hout⟩ := analyze_ok_elim hok
  subst hout
  constructor
  · constructor
    · rintro ⟨s, hs⟩
      rw [mem_sortValuesDesc, List.mem_map] at hs
      obtain ⟨r0, hr0, heq⟩ := hs
      obtain ⟨-, hmask⟩ := List.mem_filter.mp hr0
      rw [Prod.mk.injEq] at heq
      obtain ⟨h1, -⟩ := heq
      rw [← h1]
      exact (passesMask_iff t r0).mp hmask
    · intro hret
      refine ⟨scoreOfRow (normRow r), ?_⟩
      rw [mem_sortValuesDesc, List.mem_map]
      refine ⟨normRow r, ?_, rfl⟩
      rw [List.mem_filter]
      exact ⟨List.mem_map_of_mem normRow hr, (passesMask_iff t (normRow r)).mpr hret⟩
  · intro p hp
    rw [mem_sortValuesDesc, List.mem_map] at hp
    obtain ⟨r0, hr0, heq⟩ := hp
    obtain ⟨-, hmask⟩ := List.mem_filter.mp hr0
    obtain ⟨⟨v, hv, -⟩, ⟨c, hc, -⟩, ⟨b, hb, -⟩⟩ := (passesMask_iff t r0).mp hmask
    have hfst : p.1 = r0 := by rw [← heq]
    rw [hfst, hv, hc, hb]
    exact ⟨rfl, rfl, rfl⟩

/-- C2 witness: one retained row at the default thresholds. -/
theorem C2_retention_iff_witness :
    (∃ s, (normRow row0, s) ∈ [(normRow row0, scoreOfRow (normRow row0))]) ↔
      retainSpec thresholds0 (normRow row0) :=
  (C2_retention_iff thresholds0 [row0] [normRow row0]
    [(normRow row0, scoreOfRow (normRow row0))] row0 analyze_row0 (by simp)).1

/-- C3: on any successful run the table rows have all been normalized before
filtering (commas stripped from volume, currency symbol stripped from cpc,
competition parsed as a decimal); unparseable values such as the competition
`"N/A"` become missing rather than raising, and no row whose competition is
missing ever reaches the output. -/
theorem C3_normalization (t : Thresholds) (df df' : List Row) (out : List (Row × ℝ))
    (hok : analyze_keywords t df = Except.ok (df', out)) :
    df' = df.map normRow ∧
      normRow row0 =
        ⟨"kw".data, Cell.num (some 1200), Cell.num (some (1 / 10)), Cell.num (some (5 / 2))⟩ ∧
      parseNum "N/A".data = none ∧
      cellToNumeric (normRow rowNA).competition = none ∧
      ∀ p ∈ out, cellToNumeric p.1.competition ≠ none := by
  obtain ⟨hdf, hout⟩ := analyze_ok_elim hok
  refine ⟨hdf, normRow_row0, rfl, ?_, ?_⟩
  · rw [normRow_rowNA]
    rfl
  · intro p hp
    subst hout
    rw [mem_sortValuesDesc, List.mem_map] at hp
    obtain ⟨r0, hr0, heq⟩ := hp
    obtain ⟨-, hmask⟩ := List.mem_filter.mp hr0
    obtain ⟨-, ⟨c, hc, -⟩, -⟩ := (passesMask_iff t r0).mp hmask
    have hfst : p.1 = r0 := by rw [← heq]
    rw [hfst, hc]
    simp

/-- C3 witness: the run on the `"N/A"` table, whose single row is excluded. -/
theorem C3_normalization_witness :
    [normRow rowNA] = [rowNA].map normRow ∧
      normRow row0 =
        ⟨"kw".data, Cell.num (some 1200), Cell.num (some (1 / 10)), Cell.num (some (5 / 2))⟩ ∧
      parseNum "N/A".data = none ∧
      cellToNumeric (normRow rowNA).competition = none ∧
      ∀ p ∈ ([] : List (Row × ℝ)), cellToNumeric p.1.competition ≠ none :=
  C3_normalization thresholds0 [rowNA] [normRow rowNA] [] analyze_rowNA

/-- C5 counterexample: on a table missing the `Competition` column the load
step fails, but the error it propagates is the generic `Exception` wrapper
produced by the broad `except` clause, never the named `ValueError` raised
inside — so the caller cannot distinguish the structural error by its kind. -/
theorem C5_error_is_generic :
    load_keyword_data ptableMissing = Except.error loadFailureExc ∧
      ∀ m, load_keyword_data ptableMissing ≠ Except.error (PyExc.valueError m) := by
  constructor
  · rfl
  · intro m hm
    rw [show load_keyword_data ptableMissing = Except.error loadFailureExc from rfl,
      Except.error.injEq] at hm
    exact PyExc.noConfusion hm

/-- C5 amended: loading fails exactly when some required column is absent
(returning the table unchanged otherwise, with no partial processing), and
every failure surfaces as the generic message-wrapping `Exception`, not as a
named error kind; row-level normalization, by contrast, is total and never
fails (`parseNum` coerces to missing). -/
theorem C5_load_column_check (t : PTable) :
    ((∃ d, load_keyword_data t = Except.ok d ∧ d = t) ↔ ∀ c ∈ requiredColumns, c ∈ t.columns) ∧
      ∀ e, load_keyword_data t = Except.error e → ∃ m, e = PyExc.exception m := by
  unfold load_keyword_data loadInner
  split_ifs with h
  · refine ⟨⟨fun _ => ?_, fun _ => ⟨t, rfl, rfl⟩⟩, fun e he => he.elim⟩
    intro c hc
    rw [List.all_eq_true] at h
    have hcol := h c hc
    simpa using hcol
  · constructor
    · constructor
      · rintro ⟨d, hd, -⟩
        exact hd.elim
      · intro hall
        exfalso
        apply h
        rw [List.all_eq_true]
        intro c hc
        simpa using hall c hc
    · intro e he
      exact ⟨_, (Except.error.inj he).symm⟩

/-- C5 witness: the failing load on the column-deficient table instantiates
the generic-exception clause. -/
theorem C5_load_column_check_witness :
    ∃ m, loadFailureExc = PyExc.exception m :=
  (C5_load_column_check ptableMissing).2 loadFailureExc rfl

/-- C6: the empty scored collection yields a defined summary (count zero, all
means missing, no top keywords) without failing, and a non-empty collection
yields its count, the arithmetic means of volume, competition and score, and
the first five keywords by rank (hence at most five, highest scores first when
the input is the sorted analyzer output). -/
theorem C6_generate_summary :
    generate_summary [] = ⟨0, none, none, none, []⟩ ∧
      ∀ ops : List (Row × ℝ), ops ≠ [] →
        (generate_summary ops).total_opportunities = ops.length ∧
        (generate_summary ops).avg_opportunity_score =
          some ((ops.map (fun p => p.2)).sum / ((ops.map (fun p => p.2)).length : ℝ)) ∧
        (generate_summary ops).top_keywords = (ops.take 5).map (fun p => p.1.keyword) ∧
        (generate_summary ops).top_keywords.length ≤ 5 ∧
        ((∀ p ∈ ops, (cellToNumeric p.1.searches).isSome = true) →
          (generate_summary ops).avg_search_volume =
            some (((ops.map (fun p => cellToNumeric p.1.searches)).reduceOption).sum /
              (ops.length : ℚ))) ∧
        ((∀ p ∈ ops, (cellToNumeric p.1.competition).isSome = true) →
          (generate_summary ops).avg_competition =
            some (((ops.map (fun p => cellToNumeric p.1.competition)).reduceOption).sum /
              (ops.length : ℚ))) := by
  refine ⟨rfl, ?_⟩
  intro ops hne
  have hlen0 : ops.length ≠ 0 := by simpa [List.length_eq_zero] using hne
  have hmean : ∀ f : Row × ℝ → Option ℚ, (∀ p ∈ ops, (f p).isSome = true) →
      meanQ (ops.map f) =
        some (((ops.map f).reduceOption).sum / (ops.length : ℚ)) := by
    intro f hall
    have hred : ((ops.map f).reduceOption).length = (ops.map f).length := by
      rw [List.reduceOption_length_eq_iff]
      intro x hx
      rw [List.mem_map] at hx
      obtain ⟨p, hp, rfl⟩ := hx
      exact hall p hp
    have hlenmap : (ops.map f).length = ops.length := List.length_map _ _
    have hne2 : (ops.map f).reduceOption ≠ [] := by
      intro hcon
      apply hlen0
      rw [← hlenmap, ← hred, hcon]
      rfl
    have hie : ((ops.map f).reduceOption).isEmpty = false := by
      cases hx : (ops.map f).reduceOption with
      | nil => exact absurd hx hne2
      | cons a l => rfl
    simp only [meanQ, hie, Bool.false_eq_true, if_false]
    rw [hred, hlenmap]
  refine ⟨rfl, ?_, rfl, ?_, hmean _, hmean _⟩
  · have hie : (ops.map (fun p => p.2)).isEmpty = false := by
      cases hx : ops.map (fun p => p.2) with
      | nil =>
        exfalso
        apply hne
        simpa using congrArg List.length hx
      | cons a l => rfl
    simp only [generate_summary, meanR, hie, Bool.false_eq_true, if_false]
  · simp only [generate_summary, List.length_map, List.length_take]
    exact min_le_left _ _

/-- C6 witness: the one-row scored collection. -/
theorem C6_generate_summary_witness :
    (generate_summary scoredSample).total_opportunities = scoredSample.length ∧
      (generate_summary scoredSample).avg_search_volume =
        some (((scoredSample.map (fun p => cellToNumeric p.1.searches)).reduceOption).sum /
          (scoredSample.length : ℚ)) :=
  ⟨(C6_generate_summary.2 scoredSample (by simp [scoredSample])).1,
    ((C6_generate_summary.2 scoredSample (by simp [scoredSample])).2.2.2.2).1
      (by
        intro p hp
        simp only [scoredSample, List.mem_singleton] at hp
        subst hp
        rw [show (normRow row0, (66 : ℝ)).1 = normRow row0 from rfl, normRow_row0]
        rfl)⟩

/-- Comparison transfer: if the weighted raw sums compare, so do the rounded
scores. -/
lemma calculate_le_calculate {v1 c1 b1 v2 c2 b2 : ℝ}
    (h : Real.logb 10 (max v1 1) / 5 * 0.4 + (1 - c1) * 0.4 + min (b1 / 10) 1 * 0.2 ≤
        Real.logb 10 (max v2 1) / 5 * 0.4 + (1 - c2) * 0.4 + min (b2 / 10) 1 * 0.2) :
    calculate_opportunity_score v1 c1 b1 ≤ calculate_opportunity_score v2 c2 b2 := by
  simp only [calculate_opportunity_score, round2]
  have hr := round_mono_of_le (by linarith :
    (Real.logb 10 (max v1 1) / 5 * 0.4 + (1 - c1) * 0.4 + min (b1 / 10) 1 * 0.2) * 100 * 100 ≤
      (Real.logb 10 (max v2 1) / 5 * 0.4 + (1 - c2) * 0.4 + min (b2 / 10) 1 * 0.2) * 100 * 100)
  have hcast : ((round ((Real.logb 10 (max v1 1) / 5 * 0.4 + (1 - c1) * 0.4 +
      min (b1 / 10) 1 * 0.2) * 100 * 100) : ℤ) : ℝ) ≤
      ((round ((Real.logb 10 (max v2 1) / 5 * 0.4 + (1 - c2) * 0.4 +
        min (b2 / 10) 1 * 0.2) * 100 * 100) : ℤ) : ℝ) := Int.cast_le.mpr hr
  linarith

/-- C7: on valid records (volume and cpc nonnegative, competition in the unit
interval) the score is nonnegative, non-decreasing in volume, non-increasing in
competition, non-decreasing in cpc, and constant in cpc above the cap 10. -/
theorem C7_score_nonneg_and_monotone (v c b : ℝ) (hv : 0 ≤ v) (hc0 : 0 ≤ c) (hc1 : c ≤ 1)
    (hb : 0 ≤ b) :
    0 ≤ calculate_opportunity_score v c b ∧
      (∀ v', v ≤ v' → calculate_opportunity_score v c b ≤ calculate_opportunity_score v' c b) ∧
      (∀ c', c ≤ c' → calculate_opportunity_score v c' b ≤ calculate_opportunity_score v c b) ∧
      (∀ b', b ≤ b' → calculate_opportunity_score v c b ≤ calculate_opportunity_score v c b') ∧
      (∀ b1 b2 : ℝ, 10 ≤ b1 → 10 ≤ b2 →
        calculate_opportunity_score v c b1 = calculate_opportunity_score v c b2) := by
  refine ⟨?_, ?_, ?_, ?_, ?_⟩
  · have hlog : 0 ≤ Real.logb 10 (max v 1) :=
      Real.logb_nonneg (by norm_num) (le_max_right v 1)
    have hmin0 : 0 ≤ min (b / 10) 1 := le_min (by positivity) zero_le_one
    have harg : 0 ≤ (Real.logb 10 (max v 1) / 5 * 0.4 + (1 - c) * 0.4 +
        min (b / 10) 1 * 0.2) * 100 * 100 := by nlinarith
    have hr := round_nonneg_of_nonneg harg
    have hcast : (0 : ℝ) ≤ ((round ((Real.logb 10 (max v 1) / 5 * 0.4 + (1 - c) * 0.4 +
        min (b / 10) 1 * 0.2) * 100 * 100) : ℤ) : ℝ) := by exact_mod_cast hr
    simp only [calculate_opportunity_score, round2]
    linarith
  · intro v' hvv
    apply calculate_le_calculate
    have hlog : Real.logb 10 (max v 1) ≤ Real.logb 10 (max v' 1) :=
      Real.logb_le_logb_of_le (by norm_num)
        (lt_of_lt_of_le zero_lt_one (le_max_right v 1)) (max_le_max hvv le_rfl)
    linarith
  · intro c' hcc
    apply calculate_le_calculate
    linarith
  · intro b' hbb
    apply calculate_le_calculate
    have hmin : min (b / 10) 1 ≤ min (b' / 10) 1 := min_le_min (by linarith) le_rfl
    linarith
  · intro b1 b2 h1 h2
    have hm1 : min (b1 / 10) 1 = 1 := min_eq_right (by linarith)
    have hm2 : min (b2 / 10) 1 = 1 := min_eq_right (by linarith)
    simp only [calculate_opportunity_score, round2]
    rw [hm1, hm2]

/-- C7 witness: the properties instantiated at concrete valid records. -/
theorem C7_score_nonneg_and_monotone_witness :
    0 ≤ calculate_opportunity_score 1200 (1 / 10) (5 / 2) ∧
      calculate_opportunity_score 1200 (1 / 10) (5 / 2) ≤
        calculate_opportunity_score 5000 (1 / 10) (5 / 2) ∧
      calculate_opportunity_score 1200 (2 / 10) (5 / 2) ≤
        calculate_opportunity_score 1200 (1 / 10) (5 / 2) ∧
      calculate_opportunity_score 1200 (1 / 10) (5 / 2) ≤
        calculate_opportunity_score 1200 (1 / 10) 3 ∧
      calculate_opportunity_score 1200 (1 / 10) 12 = calculate_opportunity_score 1200 (1 / 10) 15 := by
  obtain ⟨h0, hmv, hmc, hmb, hpl⟩ := C7_score_nonneg_and_monotone 1200 (1 / 10) (5 / 2)
    (by norm_num) (by norm_num) (by norm_num) (by norm_num)
  exact ⟨h0, hmv 5000 (by norm_num), hmc (2 / 10) (by norm_num), hmb 3 (by norm_num),
    hpl 12 15 (by norm_num) (by norm_num)⟩

/-- C8 counterexample: `analyze_keywords` is not free of effects on its input
table.  On the one-row table `[row0]` it succeeds, but the table it leaves
behind differs from the input (the columns were coerced in place), and calling
it again on that same left-behind table raises the `.str`-accessor error
instead of returning the same output. -/
theorem C8_not_pure_counterexample :
    analyze_keywords thresholds0 [row0] =
        Except.ok ([normRow row0], [(normRow row0, scoreOfRow (normRow row0))]) ∧
      [normRow row0] ≠ [row0] ∧
      analyze_keywords thresholds0 [normRow row0] = Except.error PandasError.attributeError := by
  refine ⟨analyze_row0, by decide, rfl⟩

/-- C8 amended: the transform is a deterministic function of the table value,
but it coerces the input table's columns in place (every returned-table row has
a non-string searches cell), and re-invoking it on the mutated nonempty table
fails with the pandas `.str`-accessor error rather than reproducing the output. -/
theorem C8_analyze_mutates_input (t : Thresholds) (df df' : List Row) (out : List (Row × ℝ))
    (hok : analyze_keywords t df = Except.ok (df', out)) (hne : df ≠ []) :
    df' = df.map normRow ∧
      (∀ r ∈ df', r.searches.isStr = false) ∧
      analyze_keywords t df' = Except.error PandasError.attributeError := by
  obtain ⟨hdf, -⟩ := analyze_ok_elim hok
  subst hdf
  refine ⟨rfl, ?_, ?_⟩
  · intro r hr
    rw [List.mem_map] at hr
    obtain ⟨r0, -, rfl⟩ := hr
    cases hx : r0.searches with
    | str s => simp [normRow, replaceParse, hx, Cell.isStr]
    | num x => simp [normRow, replaceParse, hx, Cell.isStr]
  · simp only [analyze_keywords]
    rw [if_neg]
    intro hall
    rw [List.all_eq_true] at hall
    obtain ⟨r0, hr0⟩ := List.exists_mem_of_ne_nil df hne
    have hmem := hall (coerceCompetition (normRow r0))
      (List.mem_map_of_mem coerceCompetition (List.mem_map_of_mem normRow hr0))
    cases hx : r0.searches <;>
      simp [coerceCompetition, normRow, replaceParse, Cell.isStr, hx] at hmem

/-- C8 witness: the mutation and the failing re-run at the concrete table. -/
theorem C8_analyze_mutates_input_witness :
    [normRow row0] = [row0].map normRow ∧
      (∀ r ∈ [normRow row0], r.searches.isStr = false) ∧
      analyze_keywords thresholds0 [normRow row0] = Except.error PandasError.attributeError :=
  C8_analyze_mutates_input thresholds0 [row0] [normRow row0]
    [(normRow row0, scoreOfRow (normRow row0))] analyze_row0 (by simp)

/-- C9 counterexample: exporting to the extensionless name `"results"` writes
to `"results.csv"`, which carries no `YYYYMMDD_HHMMSS` stamp: the timestamped
filename computed inside `export_results` is dead code and never used. -/
theorem C9_no_timestamp_counterexample :
    export_results "20260101_120000".data "results".data = "results.csv".data ∧
      ¬ ("20260101_120000".data <:+: export_results "20260101_120000".data "results".data) := by
  constructor
  · rfl
  · decide

/-- C9 amended: the written path is independent of the timestamp; it always
ends in `.csv`, is the caller's name unchanged when that name already ends in
`.csv`, and is the name with `.csv` appended otherwise. -/
theorem C9_export_appends_csv (ts ts2 p : Chars) :
    export_results ts p = export_results ts2 p ∧
      ".csv".data <:+ export_results ts p ∧
      (".csv".data <:+ p → export_results ts p = p) ∧
      (¬ ".csv".data <:+ p → export_results ts p = p ++ ".csv".data) := by
  refine ⟨rfl, ?_, ?_, ?_⟩
  · simp only [export_results]
    split_ifs with h
    · exact h
    · exact List.suffix_append p ".csv".data
  · intro h
    simp only [export_results]
    rw [if_pos h]
  · intro h
    simp only [export_results]
    rw [if_neg h]

/-- C9 witness: a name already carrying the extension is written unchanged. -/
theorem C9_export_appends_csv_witness :
    export_results "20260101_120000".data "out.csv".data = "out.csv".data :=
  (C9_export_appends_csv "20260101_120000".data "x".data "out.csv".data).2.2.1 (by decide)
